import Mathlib

/-!
Shallow embedding of the moonPOS point-of-sale backend (`app/utils.py`,
`app/models.py`, `app/services/bookkeeping.py`, `app/routers/orders.py`,
`app/routers/inventory.py`) and proofs of the specification claims about
its checkout / inventory-adjustment / double-entry-ledger pipeline.

Money (Python `Decimal` quantized to two places with `ROUND_HALF_UP`) is
modelled as `ℚ`; the persisted store (products, orders, order items,
inventory movements, ledger entries) as lists of records; each HTTP
transaction as a function `Store → request → Except Err (Store × response)`
whose `.error` outcome corresponds to an `HTTPException` raised before any
mutation is committed (SQLAlchemy rolls the session back, so a rejected
request leaves the store unchanged).  The time-derived order number /
adjustment reference is passed in as an explicit argument.
-/

namespace MoonPOS

/-- Source `Decimal.quantize(Decimal("0.01"), rounding=ROUND_HALF_UP)` rounds to the
nearest integer number of hundredths, ties away from zero.  This is the
integer part: round `q` to the nearest integer, ties away from zero. -/
def roundHalfUp (q : ℚ) : ℤ :=
  if 0 ≤ q then ⌊q + 1 / 2⌋ else -⌊-q + 1 / 2⌋

/-- Source `app/utils.py::to_money`: normalize a monetary value to exactly two
decimal places, round-half-up (`None` inputs, normalized to zero by the
source, do not arise in the embedded call sites). -/
def to_money (value : ℚ) : ℚ :=
  (roundHalfUp (value * 100) : ℚ) / 100

/-- Source `app/models.py::Product` (columns relevant to the core pipeline). -/
structure Product where
  id : ℤ
  sku : String
  name : String
  sell_price : ℚ
  cost_price : ℚ
  stock_qty : ℤ
  is_active : Bool
  deriving Repr, DecidableEq

/-- Source `app/models.py::Order` (monetary and identifying columns; `id` is the
database-assigned primary key, modelled as position in the orders table). -/
structure Order where
  id : ℕ
  order_number : String
  payment_method : String
  subtotal : ℚ
  discount : ℚ
  tax : ℚ
  total : ℚ
  deriving Repr, DecidableEq

/-- Source `app/models.py::OrderItem`. -/
structure OrderItem where
  order_id : ℕ
  product_id : ℤ
  quantity : ℤ
  unit_price : ℚ
  cost_price : ℚ
  line_total : ℚ
  line_cost_total : ℚ
  deriving Repr, DecidableEq

/-- Source `app/models.py::InventoryMovement`. -/
structure InventoryMovement where
  product_id : ℤ
  movement_type : String
  quantity_change : ℤ
  before_qty : ℤ
  after_qty : ℤ
  reason : Option String
  ref_type : Option String
  ref_id : Option ℕ
  deriving Repr, DecidableEq

/-- Source `app/models.py::LedgerEntry`. -/
structure LedgerEntry where
  tx_ref : String
  account : String
  direction : String
  amount : ℚ
  note : Option String
  deriving Repr, DecidableEq

/-- The persisted relational state: one list per table, rows in insertion
order (appending at the tail models SQL `INSERT`). -/
structure Store where
  products : List Product
  orders : List Order
  order_items : List OrderItem
  movements : List InventoryMovement
  ledger : List LedgerEntry
  deriving Repr, DecidableEq

/-- Source `app/schemas.py::CheckoutItem` (validators: `product_id > 0`,
`quantity > 0`). -/
structure CheckoutItem where
  product_id : ℤ
  quantity : ℤ
  deriving Repr, DecidableEq

/-- Source `app/schemas.py::CheckoutRequest` after pydantic validation
(`payment_method` already stripped and lowercased by the field validator). -/
structure CheckoutRequest where
  items : List CheckoutItem
  discount : ℚ
  tax : ℚ
  payment_method : String
  deriving Repr, DecidableEq

/-- Source `app/schemas.py::CheckoutRequest.validate_payment_method`: strip and
lowercase, reject when empty. -/
def validate_payment_method (value : String) : Option String :=
  let cleaned := value.trim.toLower
  if cleaned = "" then none else some cleaned

/-- Source `app/schemas.py::InventoryAdjustmentRequest` (validator:
`quantity_change ≠ 0`). -/
structure InventoryAdjustmentRequest where
  product_id : ℤ
  quantity_change : ℤ
  reason : Option String
  counterparty_account : Option String
  deriving Repr, DecidableEq

/-- The domain error taxonomy of the two transactional endpoints
(`HTTPException` 404 / 400 variants). -/
inductive Err where
  | notFound (missing_ids : List ℤ)
  | insufficientStock (name : String) (available requested : ℤ)
  | invalidTransaction
  deriving Repr, DecidableEq

/-- Source `app/schemas.py::OrderItemOut`. -/
structure OrderItemOut where
  product_id : ℤ
  product_name : String
  quantity : ℤ
  unit_price : ℚ
  line_total : ℚ
  deriving Repr, DecidableEq

/-- Source `app/schemas.py::CheckoutResponse` (without `created_at`). -/
structure CheckoutResponse where
  order_id : ℕ
  order_number : String
  payment_method : String
  subtotal : ℚ
  discount : ℚ
  tax : ℚ
  total : ℚ
  cogs : ℚ
  gross_profit : ℚ
  items : List OrderItemOut
  deriving Repr, DecidableEq

/-- Source `app/services/bookkeeping.py::add_ledger_entry`: no-op if `amount ≤ 0`,
otherwise insert one row with the normalized amount. -/
def add_ledger_entry (ledger : List LedgerEntry) (tx_ref account direction : String)
    (amount : ℚ) (note : Option String) : List LedgerEntry :=
  if amount ≤ 0 then ledger
  else ledger ++ [{ tx_ref := tx_ref, account := account, direction := direction,
                    amount := to_money amount, note := note }]

/-- Source `app/services/bookkeeping.py::record_double_entry`: no-op if
`amount ≤ 0`, otherwise one debit row then one credit row, same
`tx_ref` / `amount` / `note`. -/
def record_double_entry (ledger : List LedgerEntry) (tx_ref debit_account credit_account : String)
    (amount : ℚ) (note : Option String) : List LedgerEntry :=
  if amount ≤ 0 then ledger
  else add_ledger_entry
        (add_ledger_entry ledger tx_ref debit_account "debit" amount note)
        tx_ref credit_account "credit" amount note

/-- Source `orders.py::checkout` lines 29-31: the Python insertion-ordered dict
update `requested_qty[pid] = requested_qty.get(pid, 0) + qty`, one step:
bump the existing key in place or append a fresh one at the tail. -/
def bumpQty : List (ℤ × ℤ) → ℤ → ℤ → List (ℤ × ℤ)
  | [], pid, q => [(pid, q)]
  | (k, v) :: rest, pid, q =>
      if k = pid then (k, v + q) :: rest else (k, v) :: bumpQty rest pid q

/-- Source `orders.py::checkout` lines 29-31: coalesce the request lines into the
`requested_qty` dict (association list in key-insertion order). -/
def buildRequestedQty (items : List CheckoutItem) : List (ℤ × ℤ) :=
  items.foldl (fun acc it => bumpQty acc it.product_id it.quantity) []

/-- Source `orders.py::checkout` lines 33-36: the `SELECT ... WHERE id IN ids AND
is_active` fetch, per id: the active product with this id, if any. -/
def findActiveProduct (products : List Product) (pid : ℤ) : Option Product :=
  products.find? (fun p => p.id == pid && p.is_active)

/-- Source `orders.py::checkout` lines 45-51: scan the coalesced lines in order and
return the first product whose stock is below the requested quantity
(pids absent from the product map cannot occur after the missing-ids
check and are skipped). -/
def firstInsufficient (products : List Product) : List (ℤ × ℤ) → Option (Product × ℤ)
  | [] => none
  | (pid, qty) :: rest =>
      match findActiveProduct products pid with
      | some p => if p.stock_qty < qty then some (p, qty) else firstInsufficient products rest
      | none => firstInsufficient products rest

/-- Source `orders.py::checkout` lines 38-43: the requested ids with no active
product row (`missing_ids`). -/
def missingIds (st : Store) (rq : List (ℤ × ℤ)) : List ℤ :=
  (rq.map Prod.fst).filter (fun pid => (findActiveProduct st.products pid).isNone)

/-- One entry of the `lines` list built by `orders.py::checkout`
lines 55-65: product snapshot, coalesced quantity, normalized unit
price/cost and line total/cost. -/
structure CheckoutLine where
  product : Product
  qty : ℤ
  unit_price : ℚ
  unit_cost : ℚ
  line_total : ℚ
  line_cost : ℚ
  deriving Repr, DecidableEq

/-- Source `orders.py::checkout` lines 59-65: pricing of one coalesced line. -/
def priceLine (p : Product) (qty : ℤ) : CheckoutLine :=
  let unit_price := to_money p.sell_price
  let unit_cost := to_money p.cost_price
  { product := p, qty := qty, unit_price := unit_price, unit_cost := unit_cost,
    line_total := to_money (unit_price * qty), line_cost := to_money (unit_cost * qty) }

/-- Source `orders.py::checkout` lines 57-65: the pricing loop over the coalesced
quantities (after the missing-ids check every pid resolves, so the
`none` branch of the lookup is dead). -/
def checkoutLines (products : List Product) (rq : List (ℤ × ℤ)) : List CheckoutLine :=
  rq.filterMap (fun pq => (findActiveProduct products pq.1).map (fun p => priceLine p pq.2))

/-- Source `orders.py::checkout` lines 53-67: `subtotal`, the running sum of line
totals, re-normalized. -/
def checkoutSubtotal (lines : List CheckoutLine) : ℚ :=
  to_money ((lines.map CheckoutLine.line_total).sum)

/-- Source `orders.py::checkout` lines 54-71: `cogs`, the running sum of line
costs, re-normalized. -/
def checkoutCogs (lines : List CheckoutLine) : ℚ :=
  to_money ((lines.map CheckoutLine.line_cost).sum)

/-- Source `orders.py::checkout` line 127: debit Accounts Receivable on credit
sales, Cash otherwise. -/
def receiptAccount (payment_method : String) : String :=
  if payment_method = "credit" then "Accounts Receivable" else "Cash"

/-- Source `orders.py::checkout` line 128: the shared note of both postings. -/
def checkoutNote (order_number : String) : Option String :=
  some ("Checkout order " ++ order_number)

/-- Source `product.stock_qty = after_qty` on the ORM object: rewrite the stock of
the row with this primary key. -/
def setStock (products : List Product) (pid : ℤ) (qty : ℤ) : List Product :=
  products.map (fun p => if p.id = pid then { p with stock_qty := qty } else p)

/-- Current stock of the row with primary key `pid` (the ORM object's
`stock_qty` attribute; `0` default is dead code, the callers only use ids
of fetched rows). -/
def stockOf (products : List Product) (pid : ℤ) : ℤ :=
  ((products.find? (fun p => p.id == pid)).map Product.stock_qty).getD 0

/-- One iteration of the mutation loop of `orders.py::checkout`
lines 89-116: read current stock, debit it, insert the `OrderItem` and the
`sale` `InventoryMovement` referencing the order. -/
def applyLine (order_id : ℕ) (order_number : String) (st : Store) (ln : CheckoutLine) :
    Store :=
  let before_qty := stockOf st.products ln.product.id
  let after_qty := before_qty - ln.qty
  { st with
    products := setStock st.products ln.product.id after_qty,
    order_items := st.order_items ++
      [{ order_id := order_id, product_id := ln.product.id, quantity := ln.qty,
         unit_price := ln.unit_price, cost_price := ln.unit_cost,
         line_total := ln.line_total, line_cost_total := ln.line_cost }],
    movements := st.movements ++
      [{ product_id := ln.product.id, movement_type := "sale",
         quantity_change := -ln.qty, before_qty := before_qty, after_qty := after_qty,
         reason := some ("Checkout " ++ order_number), ref_type := some "order",
         ref_id := some order_id }] }

/-- Source `orders.py::checkout` lines 89-116: the whole mutation loop. -/
def applyLines (order_id : ℕ) (order_number : String) : Store → List CheckoutLine → Store
  | st, [] => st
  | st, ln :: rest =>
      applyLines order_id order_number (applyLine order_id order_number st ln) rest

/-- Source `orders.py::checkout` (POST /checkout), with the time-derived
`order_number` passed explicitly.  `.error` models an `HTTPException`
raised before commit; `.ok` carries the committed store and the response. -/
def checkout (st : Store) (payload : CheckoutRequest) (order_number : String) :
    Except Err (Store × CheckoutResponse) :=
  let requested_qty := buildRequestedQty payload.items
  if missingIds st requested_qty ≠ [] then .error (.notFound (missingIds st requested_qty))
  else match firstInsufficient st.products requested_qty with
  | some (p, qty) => .error (.insufficientStock p.name p.stock_qty qty)
  | none =>
    let lines := checkoutLines st.products requested_qty
    let subtotal := checkoutSubtotal lines
    let discount := to_money payload.discount
    let tax := to_money payload.tax
    let total := to_money (subtotal - discount + tax)
    let cogs := checkoutCogs lines
    if total < 0 then .error .invalidTransaction
    else
      let order_id := st.orders.length + 1
      let order : Order :=
        { id := order_id, order_number := order_number,
          payment_method := payload.payment_method, subtotal := subtotal,
          discount := discount, tax := tax, total := total }
      let st1 : Store := { st with orders := st.orders ++ [order] }
      let st2 := applyLines order_id order_number st1 lines
      let ledger1 := record_double_entry st2.ledger order_number
        (receiptAccount payload.payment_method) "Sales Revenue" total
        (checkoutNote order_number)
      let ledger2 := record_double_entry ledger1 order_number "COGS" "Inventory" cogs
        (checkoutNote order_number)
      let gross_profit := to_money (total - cogs)
      .ok ({ st2 with ledger := ledger2 },
        { order_id := order_id, order_number := order_number,
          payment_method := payload.payment_method, subtotal := subtotal,
          discount := discount, tax := tax, total := total, cogs := cogs,
          gross_profit := gross_profit,
          items := lines.map (fun l =>
            { product_id := l.product.id, product_name := l.product.name,
              quantity := l.qty, unit_price := l.unit_price,
              line_total := l.line_total }) })

/-- Source `inventory.py::adjust_inventory` lines 58-66: the appended movement
(kind `restock` for a positive delta, `adjustment` otherwise). -/
def adjustMovement (product : Product) (payload : InventoryAdjustmentRequest) :
    InventoryMovement :=
  { product_id := product.id,
    movement_type := if payload.quantity_change > 0 then "restock" else "adjustment",
    quantity_change := payload.quantity_change, before_qty := product.stock_qty,
    after_qty := product.stock_qty + payload.quantity_change, reason := payload.reason,
    ref_type := some "manual", ref_id := none }

/-- Source `inventory.py::adjust_inventory` lines 70-71: the posting value
`to_money(to_money(cost_price) * abs(quantity_change))`. -/
def adjustValue (product : Product) (payload : InventoryAdjustmentRequest) : ℚ :=
  to_money (to_money product.cost_price * |payload.quantity_change|)

/-- Source `inventory.py::adjust_inventory` lines 72-76: trimmed caller-supplied
counterparty account if non-empty, else the direction-dependent default
(Python truthiness: `None` and the empty-after-strip string both fall to
the default). -/
def adjustCounterparty (payload : InventoryAdjustmentRequest) : String :=
  match payload.counterparty_account with
  | some s => if s.trim ≠ "" then s.trim
      else if payload.quantity_change > 0 then "Cash" else "Inventory Shrinkage Expense"
  | none => if payload.quantity_change > 0 then "Cash" else "Inventory Shrinkage Expense"

/-- Source `inventory.py::adjust_inventory` line 77: `reason or f"Manual stock
adjustment {sku}"` (Python `or` treats the empty string as falsy). -/
def adjustNote (product : Product) (payload : InventoryAdjustmentRequest) : Option String :=
  match payload.reason with
  | some r => if r ≠ "" then some r else some ("Manual stock adjustment " ++ product.sku)
  | none => some ("Manual stock adjustment " ++ product.sku)

/-- Source `inventory.py::adjust_inventory` lines 79-82: the double-entry posting:
debit Inventory / credit counterparty for increases, the reverse for
decreases. -/
def adjustLedger (ledger : List LedgerEntry) (product : Product)
    (payload : InventoryAdjustmentRequest) (tx_ref : String) : List LedgerEntry :=
  if payload.quantity_change > 0 then
    record_double_entry ledger tx_ref "Inventory" (adjustCounterparty payload)
      (adjustValue product payload) (adjustNote product payload)
  else
    record_double_entry ledger tx_ref (adjustCounterparty payload) "Inventory"
      (adjustValue product payload) (adjustNote product payload)

/-- The store committed by an accepted adjustment. -/
def adjustCommitted (st : Store) (product : Product)
    (payload : InventoryAdjustmentRequest) (tx_ref : String) : Store :=
  { st with
    products := setStock st.products product.id
      (product.stock_qty + payload.quantity_change),
    movements := st.movements ++ [adjustMovement product payload],
    ledger := adjustLedger st.ledger product payload tx_ref }

/-- Source `inventory.py::adjust_inventory` (POST /inventory/adjust), with the
time-derived `tx_ref` passed explicitly. -/
def adjust_inventory (st : Store) (payload : InventoryAdjustmentRequest) (tx_ref : String) :
    Except Err (Store × InventoryMovement) :=
  match st.products.find? (fun p => p.id == payload.product_id) with
  | none => .error (.notFound [payload.product_id])
  | some product =>
    if product.is_active = false then .error (.notFound [payload.product_id])
    else
      let before_qty := product.stock_qty
      let after_qty := before_qty + payload.quantity_change
      if after_qty < 0 then
        .error (.insufficientStock product.name before_qty |payload.quantity_change|)
      else
        .ok (adjustCommitted st product payload tx_ref, adjustMovement product payload)

/-- The store after a checkout request: the committed store on success, the
rolled-back (unchanged) store on rejection. -/
def applyCheckout (st : Store) (payload : CheckoutRequest) (order_number : String) : Store :=
  match checkout st payload order_number with
  | .ok (st', _) => st'
  | .error _ => st

/-- The store after an adjustment request: committed on success, rolled
back on rejection. -/
def applyAdjust (st : Store) (payload : InventoryAdjustmentRequest) (tx_ref : String) : Store :=
  match adjust_inventory st payload tx_ref with
  | .ok (st', _) => st'
  | .error _ => st

/-- The request in which repeated product lines are replaced by a single
line carrying the summed quantity, placed at the first occurrence
(the coalesced form the spec compares a duplicate-line checkout against). -/
def coalesceRequest (payload : CheckoutRequest) : CheckoutRequest :=
  { payload with
    items := (buildRequestedQty payload.items).map (fun pq =>
      { product_id := pq.1, quantity := pq.2 }) }

/-- Sum of the `debit`-direction amounts of a transaction reference. -/
def debitSum (ledger : List LedgerEntry) (ref : String) : ℚ :=
  ((ledger.filter (fun e => e.tx_ref == ref && e.direction == "debit")).map
    LedgerEntry.amount).sum

/-- Sum of the `credit`-direction amounts of a transaction reference. -/
def creditSum (ledger : List LedgerEntry) (ref : String) : ℚ :=
  ((ledger.filter (fun e => e.tx_ref == ref && e.direction == "credit")).map
    LedgerEntry.amount).sum

/-- The double-entry law: every transaction reference is balanced. -/
def Balanced (ledger : List LedgerEntry) : Prop :=
  ∀ ref : String, debitSum ledger ref = creditSum ledger ref

lemma roundHalfUp_intCast (n : ℤ) : roundHalfUp (n : ℚ) = n := by
  unfold roundHalfUp
  have hhalf : ⌊(1 / 2 : ℚ)⌋ = 0 := by norm_num
  split
  · rw [add_comm, Int.floor_add_int, hhalf, zero_add]
  · have : -(n : ℚ) = ((-n : ℤ) : ℚ) := by push_cast; ring
    rw [this, add_comm, Int.floor_add_int, hhalf, zero_add, neg_neg]

lemma to_money_int_div_hundred (n : ℤ) : to_money ((n : ℚ) / 100) = (n : ℚ) / 100 := by
  unfold to_money
  rw [div_mul_cancel₀ _ (by norm_num : (100 : ℚ) ≠ 0), roundHalfUp_intCast]

lemma to_money_idem (q : ℚ) : to_money (to_money q) = to_money q := by
  rw [to_money]
  exact to_money_int_div_hundred _

lemma to_money_zero : to_money 0 = 0 := by
  have := to_money_int_div_hundred 0
  simpa using this

lemma add_ledger_entry_nonpos {amount : ℚ} (h : amount ≤ 0)
    (ledger : List LedgerEntry) (tx_ref account direction : String) (note : Option String) :
    add_ledger_entry ledger tx_ref account direction amount note = ledger := by
  simp [add_ledger_entry, h]

lemma add_ledger_entry_pos {amount : ℚ} (h : 0 < amount)
    (ledger : List LedgerEntry) (tx_ref account direction : String) (note : Option String) :
    add_ledger_entry ledger tx_ref account direction amount note =
      ledger ++ [{ tx_ref := tx_ref, account := account, direction := direction,
                   amount := to_money amount, note := note }] := by
  simp [add_ledger_entry, not_le.mpr h]

lemma record_double_entry_nonpos {amount : ℚ} (h : amount ≤ 0)
    (ledger : List LedgerEntry) (tx_ref debit_account credit_account : String)
    (note : Option String) :
    record_double_entry ledger tx_ref debit_account credit_account amount note = ledger := by
  simp [record_double_entry, h]

lemma record_double_entry_pos {amount : ℚ} (h : 0 < amount)
    (ledger : List LedgerEntry) (tx_ref debit_account credit_account : String)
    (note : Option String) :
    record_double_entry ledger tx_ref debit_account credit_account amount note =
      ledger ++
        [{ tx_ref := tx_ref, account := debit_account, direction := "debit",
           amount := to_money amount, note := note },
         { tx_ref := tx_ref, account := credit_account, direction := "credit",
           amount := to_money amount, note := note }] := by
  rw [record_double_entry, if_neg (not_le.mpr h),
    add_ledger_entry_pos h, add_ledger_entry_pos h, List.append_assoc]
  rfl

lemma debitSum_append (l₁ l₂ : List LedgerEntry) (ref : String) :
    debitSum (l₁ ++ l₂) ref = debitSum l₁ ref + debitSum l₂ ref := by
  simp [debitSum, List.filter_append]

lemma creditSum_append (l₁ l₂ : List LedgerEntry) (ref : String) :
    creditSum (l₁ ++ l₂) ref = creditSum l₁ ref + creditSum l₂ ref := by
  simp [creditSum, List.filter_append]

lemma balanced_record_double_entry {ledger : List LedgerEntry}
    (hb : Balanced ledger) (tx_ref debit_account credit_account : String)
    (amount : ℚ) (note : Option String) :
    Balanced (record_double_entry ledger tx_ref debit_account credit_account amount note) := by
  rcases le_or_lt amount 0 with h | h
  · rwa [record_double_entry_nonpos h]
  · intro ref
    rw [record_double_entry_pos h, debitSum_append, creditSum_append, hb ref]
    congr 1
    by_cases href : tx_ref = ref <;>
      simp [debitSum, creditSum, List.filter_cons, href]

lemma mem_record_double_entry {ledger : List LedgerEntry} {e : LedgerEntry}
    {tx_ref debit_account credit_account : String} {amount : ℚ} {note : Option String}
    (h : e ∈ record_double_entry ledger tx_ref debit_account credit_account amount note) :
    e ∈ ledger ∨ (0 < amount ∧ e.amount = to_money amount) := by
  rcases le_or_lt amount 0 with h0 | h0
  · rw [record_double_entry_nonpos h0] at h
    exact Or.inl h
  · rw [record_double_entry_pos h0] at h
    rcases List.mem_append.mp h with h | h
    · exact Or.inl h
    · right
      refine ⟨h0, ?_⟩
      simp only [List.mem_cons, List.not_mem_nil, or_false] at h
      rcases h with rfl | rfl <;> rfl

lemma setStock_cons (p : Product) (ps : List Product) (pid v : ℤ) :
    setStock (p :: ps) pid v =
      (if p.id = pid then { p with stock_qty := v } else p) :: setStock ps pid v := by
  rfl

lemma stockOf_cons (p : Product) (ps : List Product) (pid : ℤ) :
    stockOf (p :: ps) pid = if p.id = pid then p.stock_qty else stockOf ps pid := by
  by_cases h : p.id = pid <;> simp [stockOf, List.find?_cons, h]

lemma setStock_map_id (ps : List Product) (pid v : ℤ) :
    (setStock ps pid v).map Product.id = ps.map Product.id := by
  induction ps with
  | nil => rfl
  | cons p ps ih =>
      rw [setStock_cons, List.map_cons, List.map_cons, ih]
      by_cases h : p.id = pid <;> simp [h]

lemma mem_setStock {q : Product} {ps : List Product} {pid v : ℤ}
    (h : q ∈ setStock ps pid v) :
    ∃ p ∈ ps, q = if p.id = pid then { p with stock_qty := v } else p := by
  rcases List.mem_map.mp h with ⟨p, hp, rfl⟩
  exact ⟨p, hp, rfl⟩

lemma stockOf_setStock_ne {pid pid' : ℤ} (h : pid ≠ pid') (ps : List Product) (v : ℤ) :
    stockOf (setStock ps pid' v) pid = stockOf ps pid := by
  induction ps with
  | nil => rfl
  | cons p ps ih =>
      rw [setStock_cons]
      by_cases hp : p.id = pid'
      · rw [if_pos hp, stockOf_cons, stockOf_cons,
          show ({ p with stock_qty := v } : Product).id = p.id from rfl]
        have hne : p.id ≠ pid := by rw [hp]; exact Ne.symm h
        rw [if_neg hne, if_neg hne, ih]
      · rw [if_neg hp, stockOf_cons, stockOf_cons, ih]

lemma stockOf_setStock_self {pid : ℤ} {ps : List Product}
    (h : pid ∈ ps.map Product.id) (v : ℤ) :
    stockOf (setStock ps pid v) pid = v := by
  induction ps with
  | nil => simp at h
  | cons p ps ih =>
      rw [setStock_cons, stockOf_cons]
      by_cases hp : p.id = pid
      · simp [hp]
      · rw [List.map_cons, List.mem_cons] at h
        rcases h with h | h
        · exact absurd h.symm hp
        · simp only [hp, if_false]
          exact ih h

lemma applyLine_products (oid : ℕ) (n : String) (st : Store) (l : CheckoutLine) :
    (applyLine oid n st l).products =
      setStock st.products l.product.id (stockOf st.products l.product.id - l.qty) := rfl

lemma applyLine_orders (oid : ℕ) (n : String) (st : Store) (l : CheckoutLine) :
    (applyLine oid n st l).orders = st.orders := rfl

lemma applyLine_ledger (oid : ℕ) (n : String) (st : Store) (l : CheckoutLine) :
    (applyLine oid n st l).ledger = st.ledger := rfl

lemma applyLine_movements (oid : ℕ) (n : String) (st : Store) (l : CheckoutLine) :
    (applyLine oid n st l).movements = st.movements ++
      [{ product_id := l.product.id, movement_type := "sale", quantity_change := -l.qty,
         before_qty := stockOf st.products l.product.id,
         after_qty := stockOf st.products l.product.id - l.qty,
         reason := some ("Checkout " ++ n), ref_type := some "order",
         ref_id := some oid }] := rfl

lemma applyLines_orders (oid : ℕ) (n : String) (st : Store) (ls : List CheckoutLine) :
    (applyLines oid n st ls).orders = st.orders := by
  induction ls generalizing st with
  | nil => rfl
  | cons l ls ih => rw [applyLines, ih, applyLine_orders]

lemma applyLines_ledger (oid : ℕ) (n : String) (st : Store) (ls : List CheckoutLine) :
    (applyLines oid n st ls).ledger = st.ledger := by
  induction ls generalizing st with
  | nil => rfl
  | cons l ls ih => rw [applyLines, ih, applyLine_ledger]

lemma applyLines_products_ids (oid : ℕ) (n : String) (st : Store) (ls : List CheckoutLine) :
    (applyLines oid n st ls).products.map Product.id = st.products.map Product.id := by
  induction ls generalizing st with
  | nil => rfl
  | cons l ls ih => rw [applyLines, ih, applyLine_products]; exact setStock_map_id _ _ _

lemma applyLines_movements_extend (oid : ℕ) (n : String) (st : Store)
    (ls : List CheckoutLine) :
    ∃ ms, (applyLines oid n st ls).movements = st.movements ++ ms := by
  induction ls generalizing st with
  | nil => exact ⟨[], (List.append_nil _).symm⟩
  | cons l ls ih =>
      rcases ih (applyLine oid n st l) with ⟨ms, hms⟩
      rw [applyLines, hms, applyLine_movements, List.append_assoc]
      exact ⟨_, rfl⟩

lemma applyLines_stockOf_notMem {pid : ℤ} {ls : List CheckoutLine}
    (h : pid ∉ ls.map (fun l => l.product.id)) (oid : ℕ) (n : String) (st : Store) :
    stockOf (applyLines oid n st ls).products pid = stockOf st.products pid := by
  induction ls generalizing st with
  | nil => rfl
  | cons l ls ih =>
      rw [List.map_cons, List.mem_cons] at h
      push_neg at h
      rw [applyLines, ih h.2, applyLine_products]
      exact stockOf_setStock_ne h.1 _ _

lemma applyLines_stock_nonneg {st : Store} {ls : List CheckoutLine}
    (hn : ∀ q ∈ st.products, 0 ≤ q.stock_qty)
    (hq : ∀ l ∈ ls, l.qty ≤ stockOf st.products l.product.id)
    (hnd : (ls.map (fun l => l.product.id)).Nodup) (oid : ℕ) (n : String) :
    ∀ q ∈ (applyLines oid n st ls).products, 0 ≤ q.stock_qty := by
  induction ls generalizing st with
  | nil => exact hn
  | cons l ls ih =>
      rw [applyLines]
      rw [List.map_cons, List.nodup_cons] at hnd
      have hafter : 0 ≤ stockOf st.products l.product.id - l.qty :=
        sub_nonneg.mpr (hq l (List.mem_cons_self _ _))
      refine ih ?_ ?_ hnd.2
      · intro q hqmem
        rw [applyLine_products] at hqmem
        rcases mem_setStock hqmem with ⟨p, hp, rfl⟩
        by_cases hid : p.id = l.product.id
        · rw [if_pos hid]
          exact hafter
        · rw [if_neg hid]
          exact hn p hp
      · intro l' hl'
        have hne : l'.product.id ≠ l.product.id := by
          intro hc
          exact hnd.1 (hc ▸ List.mem_map_of_mem (fun l => l.product.id) hl')
        rw [applyLine_products, stockOf_setStock_ne hne]
        exact hq l' (List.mem_cons_of_mem _ hl')

lemma bumpQty_keys (acc : List (ℤ × ℤ)) (pid q : ℤ) :
    (bumpQty acc pid q).map Prod.fst =
      if pid ∈ acc.map Prod.fst then acc.map Prod.fst else acc.map Prod.fst ++ [pid] := by
  induction acc with
  | nil => simp [bumpQty]
  | cons kv acc ih =>
      obtain ⟨k, v⟩ := kv
      by_cases h : k = pid
      · simp [bumpQty, h]
      · rw [bumpQty, if_neg h, List.map_cons, ih, List.map_cons]
        by_cases h2 : pid ∈ acc.map Prod.fst
        · rw [if_pos h2, if_pos (by simp [h2])]
        · rw [if_neg h2, if_neg (by simp [h2, Ne.symm h]), List.cons_append]

lemma nodup_keys_bumpQty {acc : List (ℤ × ℤ)} (h : (acc.map Prod.fst).Nodup)
    (pid q : ℤ) : ((bumpQty acc pid q).map Prod.fst).Nodup := by
  rw [bumpQty_keys]
  split
  · exact h
  · next hmem => simp [List.nodup_append, h, hmem]

lemma nodup_keys_foldl_bumpQty (items : List CheckoutItem) (acc : List (ℤ × ℤ))
    (h : (acc.map Prod.fst).Nodup) :
    (((items.foldl (fun a it => bumpQty a it.product_id it.quantity) acc)).map
      Prod.fst).Nodup := by
  induction items generalizing acc with
  | nil => exact h
  | cons it items ih => exact ih _ (nodup_keys_bumpQty h _ _)

lemma nodup_keys_buildRequestedQty (items : List CheckoutItem) :
    ((buildRequestedQty items).map Prod.fst).Nodup :=
  nodup_keys_foldl_bumpQty items [] (by simp)

lemma bumpQty_of_notMem {acc : List (ℤ × ℤ)} {pid : ℤ}
    (h : pid ∉ acc.map Prod.fst) (q : ℤ) : bumpQty acc pid q = acc ++ [(pid, q)] := by
  induction acc with
  | nil => rfl
  | cons kv acc ih =>
      obtain ⟨k, v⟩ := kv
      rw [List.map_cons, List.mem_cons] at h
      push_neg at h
      rw [bumpQty, if_neg (fun hc => h.1 hc.symm), ih h.2, List.cons_append]

lemma foldl_bumpQty_fresh (l : List (ℤ × ℤ)) (acc : List (ℤ × ℤ))
    (hnd : (l.map Prod.fst).Nodup)
    (hdisj : ∀ k ∈ l.map Prod.fst, k ∉ acc.map Prod.fst) :
    l.foldl (fun a pq => bumpQty a pq.1 pq.2) acc = acc ++ l := by
  induction l generalizing acc with
  | nil => simp
  | cons pq l ih =>
      rw [List.map_cons, List.nodup_cons] at hnd
      have hd2 : ∀ k ∈ l.map Prod.fst, k ∉ (acc ++ [(pq.1, pq.2)]).map Prod.fst := by
        intro k hk
        rw [List.map_append, List.mem_append]
        push_neg
        refine ⟨hdisj k (by simp [hk]), ?_⟩
        simp only [List.map_cons, List.map_nil, List.mem_singleton]
        exact fun hc => hnd.1 (hc ▸ hk)
      rw [List.foldl_cons, bumpQty_of_notMem (hdisj pq.1 (by simp)) pq.2,
        ih _ hnd.2 hd2, List.append_assoc, List.singleton_append]

lemma buildRequestedQty_coalesce (items : List CheckoutItem) :
    buildRequestedQty ((buildRequestedQty items).map (fun pq =>
      ({ product_id := pq.1, quantity := pq.2 } : CheckoutItem))) =
      buildRequestedQty items := by
  conv_lhs => rw [buildRequestedQty]
  rw [List.foldl_map]
  exact (foldl_bumpQty_fresh (buildRequestedQty items) []
    (nodup_keys_buildRequestedQty items) (by simp)).trans (List.nil_append _)

lemma findActiveProduct_spec {ps : List Product} {pid : ℤ} {p : Product}
    (h : findActiveProduct ps pid = some p) : p.id = pid ∧ p.is_active = true := by
  have hp := List.find?_some h
  simp only [Bool.and_eq_true, beq_iff_eq] at hp
  exact hp

lemma findActiveProduct_mem {ps : List Product} {pid : ℤ} {p : Product}
    (h : findActiveProduct ps pid = some p) : p ∈ ps :=
  List.mem_of_find?_eq_some h

lemma findActiveProduct_none {ps : List Product} {pid : ℤ}
    (h : ∀ p ∈ ps, p.id ≠ pid) : findActiveProduct ps pid = none := by
  rw [findActiveProduct, List.find?_eq_none]
  intro p hp
  simp [h p hp]

lemma findActiveProduct_cons (p : Product) (ps : List Product) (pid : ℤ) :
    findActiveProduct (p :: ps) pid =
      if (p.id == pid && p.is_active) = true then some p
      else findActiveProduct ps pid := by
  by_cases h : (p.id == pid && p.is_active) = true
  · simp [findActiveProduct, List.find?_cons, h]
  · rw [Bool.not_eq_true] at h
    simp [findActiveProduct, List.find?_cons, h]

lemma find?_id_of_findActive {ps : List Product} {pid : ℤ} {p : Product}
    (hnd : (ps.map Product.id).Nodup) (h : findActiveProduct ps pid = some p) :
    ps.find? (fun q => q.id == pid) = some p := by
  induction ps with
  | nil => cases h
  | cons q ps ih =>
      rw [List.map_cons, List.nodup_cons] at hnd
      rw [findActiveProduct_cons] at h
      by_cases hq : q.id = pid
      · rw [List.find?_cons_of_pos _ (by simp [hq])]
        by_cases ha : q.is_active = true
        · rw [if_pos (by simp [hq, ha])] at h
          exact h
        · rw [if_neg (by simp [ha])] at h
          have hmem : p ∈ ps := findActiveProduct_mem h
          have hid := (findActiveProduct_spec h).1
          rw [← hq] at hid
          exact absurd (hid ▸ List.mem_map_of_mem Product.id hmem) hnd.1
      · rw [if_neg (by simp [hq])] at h
        rw [List.find?_cons_of_neg _ (by simp [hq])]
        exact ih hnd.2 h

lemma stockOf_eq_of_findActive {ps : List Product} {pid : ℤ} {p : Product}
    (hnd : (ps.map Product.id).Nodup) (h : findActiveProduct ps pid = some p) :
    stockOf ps pid = p.stock_qty := by
  rw [stockOf, find?_id_of_findActive hnd h]
  rfl

lemma firstInsufficient_cons (ps : List Product) (pid qty : ℤ) (rq : List (ℤ × ℤ)) :
    firstInsufficient ps ((pid, qty) :: rq) =
      match findActiveProduct ps pid with
      | some p => if p.stock_qty < qty then some (p, qty) else firstInsufficient ps rq
      | none => firstInsufficient ps rq := rfl

lemma firstInsufficient_eq_none {ps : List Product} {rq : List (ℤ × ℤ)} :
    firstInsufficient ps rq = none ↔
      ∀ pq ∈ rq, ∀ p, findActiveProduct ps pq.1 = some p → ¬ p.stock_qty < pq.2 := by
  induction rq with
  | nil => simp [firstInsufficient]
  | cons pq rq ih =>
      obtain ⟨pid, qty⟩ := pq
      rw [firstInsufficient_cons]
      cases hfind : findActiveProduct ps pid with
      | none =>
          rw [ih]
          constructor
          · intro h pq' hpq' p hp
            rcases List.mem_cons.mp hpq' with heq | hpq'
            · subst heq
              dsimp only at hp
              rw [hfind] at hp
              cases hp
            · exact h pq' hpq' p hp
          · intro h pq' hpq' p hp
            exact h pq' (List.mem_cons_of_mem _ hpq') p hp
      | some q =>
          dsimp only
          by_cases hlt : q.stock_qty < qty
          · rw [if_pos hlt]
            constructor
            · intro h
              cases h
            · intro h
              exact absurd hlt (h (pid, qty) (List.mem_cons_self _ _) q hfind)
          · rw [if_neg hlt, ih]
            constructor
            · intro h pq' hpq' p hp
              rcases List.mem_cons.mp hpq' with heq | hpq'
              · subst heq
                dsimp only at hp
                rw [hfind] at hp
                cases hp
                exact hlt
              · exact h pq' hpq' p hp
            · intro h pq' hpq' p hp
              exact h pq' (List.mem_cons_of_mem _ hpq') p hp

lemma mem_checkoutLines {ps : List Product} {rq : List (ℤ × ℤ)} {l : CheckoutLine}
    (h : l ∈ checkoutLines ps rq) :
    ∃ pq ∈ rq, findActiveProduct ps pq.1 = some l.product ∧ l = priceLine l.product pq.2 := by
  rcases List.mem_filterMap.mp h with ⟨pq, hpq, hmap⟩
  rcases Option.map_eq_some'.mp hmap with ⟨p, hfind, hl⟩
  have hprod : l.product = p := by rw [← hl]; rfl
  exact ⟨pq, hpq, hprod ▸ hfind, by rw [hprod, ← hl]⟩

lemma missingIds_eq_nil {st : Store} {rq : List (ℤ × ℤ)} :
    missingIds st rq = [] ↔
      ∀ pid ∈ rq.map Prod.fst, (findActiveProduct st.products pid).isSome = true := by
  rw [missingIds, List.filter_eq_nil_iff]
  constructor
  · intro h pid hpid
    have h2 := h pid hpid
    cases hopt : findActiveProduct st.products pid with
    | none => rw [hopt] at h2; simp at h2
    | some p => rfl
  · intro h pid hpid
    have h2 := h pid hpid
    cases hopt : findActiveProduct st.products pid with
    | none => rw [hopt] at h2; simp at h2
    | some p => simp [hopt]

lemma checkoutLines_map_id {ps : List Product} {rq : List (ℤ × ℤ)}
    (h : ∀ pid ∈ rq.map Prod.fst, (findActiveProduct ps pid).isSome = true) :
    (checkoutLines ps rq).map (fun l => l.product.id) = rq.map Prod.fst := by
  induction rq with
  | nil => rfl
  | cons pq rq ih =>
      have h1 := h pq.1 (by simp)
      rcases Option.isSome_iff_exists.mp h1 with ⟨p, hp⟩
      rw [checkoutLines, List.filterMap_cons, hp]
      simp only [Option.map_some']
      rw [List.map_cons]
      have hid : (priceLine p pq.2).product.id = pq.1 := (findActiveProduct_spec hp).1
      rw [hid]
      congr 1
      exact ih (fun pid hpid => h pid (List.mem_cons_of_mem _ hpid))

/-- The `total` computed by `orders.py::checkout` line 70. -/
def checkoutTotal (payload : CheckoutRequest) (lines : List CheckoutLine) : ℚ :=
  to_money (checkoutSubtotal lines - to_money payload.discount + to_money payload.tax)

/-- The `Order` row inserted by an accepted checkout (`orders.py` lines 76-85). -/
def checkoutOrder (st : Store) (payload : CheckoutRequest) (n : String) : Order :=
  let lines := checkoutLines st.products (buildRequestedQty payload.items)
  { id := st.orders.length + 1, order_number := n,
    payment_method := payload.payment_method, subtotal := checkoutSubtotal lines,
    discount := to_money payload.discount, tax := to_money payload.tax,
    total := checkoutTotal payload lines }

/-- The whole store committed by an accepted checkout. -/
def checkoutCommitted (st : Store) (payload : CheckoutRequest) (n : String) : Store :=
  let lines := checkoutLines st.products (buildRequestedQty payload.items)
  let st2 := applyLines (st.orders.length + 1) n
    { st with orders := st.orders ++ [checkoutOrder st payload n] } lines
  { st2 with ledger :=
      (record_double_entry
        (record_double_entry st2.ledger n (receiptAccount payload.payment_method)
          "Sales Revenue" (checkoutTotal payload lines) (checkoutNote n))
        n "COGS" "Inventory" (checkoutCogs lines) (checkoutNote n)) }

/-- The response returned by an accepted checkout. -/
def checkoutResp (st : Store) (payload : CheckoutRequest) (n : String) : CheckoutResponse :=
  let lines := checkoutLines st.products (buildRequestedQty payload.items)
  { order_id := st.orders.length + 1, order_number := n,
    payment_method := payload.payment_method, subtotal := checkoutSubtotal lines,
    discount := to_money payload.discount, tax := to_money payload.tax,
    total := checkoutTotal payload lines, cogs := checkoutCogs lines,
    gross_profit := to_money (checkoutTotal payload lines - checkoutCogs lines),
    items := lines.map (fun l =>
      { product_id := l.product.id, product_name := l.product.name,
        quantity := l.qty, unit_price := l.unit_price, line_total := l.line_total }) }

lemma checkout_ok_inv {st : Store} {payload : CheckoutRequest} {n : String}
    {st' : Store} {resp : CheckoutResponse}
    (h : checkout st payload n = .ok (st', resp)) :
    missingIds st (buildRequestedQty payload.items) = [] ∧
    firstInsufficient st.products (buildRequestedQty payload.items) = none ∧
    ¬ checkoutTotal payload (checkoutLines st.products (buildRequestedQty payload.items)) < 0 ∧
    st' = checkoutCommitted st payload n ∧ resp = checkoutResp st payload n := by
  rw [checkout] at h
  split at h
  · cases h
  next hmiss =>
    rw [not_not] at hmiss
    split at h
    · cases h
    next hfi =>
      dsimp only at h
      split at h
      · cases h
      next htot =>
        rw [Except.ok.injEq, Prod.mk.injEq] at h
        obtain ⟨h1, h2⟩ := h
        exact ⟨hmiss, hfi, htot, h1.symm, h2.symm⟩

lemma checkout_error_of_missing {st : Store} {payload : CheckoutRequest} {n : String}
    (hmiss : missingIds st (buildRequestedQty payload.items) ≠ []) :
    checkout st payload n = .error (.notFound (missingIds st (buildRequestedQty payload.items))) := by
  rw [checkout, if_pos hmiss]

lemma checkout_error_of_insufficient {st : Store} {payload : CheckoutRequest} {n : String}
    {p : Product} {qty : ℤ}
    (hmiss : missingIds st (buildRequestedQty payload.items) = [])
    (hfi : firstInsufficient st.products (buildRequestedQty payload.items) = some (p, qty)) :
    checkout st payload n = .error (.insufficientStock p.name p.stock_qty qty) := by
  rw [checkout, if_neg (by rw [not_not]; exact hmiss), hfi]

lemma checkout_error_of_neg_total {st : Store} {payload : CheckoutRequest} {n : String}
    (hmiss : missingIds st (buildRequestedQty payload.items) = [])
    (hfi : firstInsufficient st.products (buildRequestedQty payload.items) = none)
    (htot : checkoutTotal payload (checkoutLines st.products (buildRequestedQty payload.items)) < 0) :
    checkout st payload n = .error .invalidTransaction := by
  rw [checkout, if_neg (by rw [not_not]; exact hmiss), hfi]
  exact if_pos htot

lemma adjust_ok_inv {st : Store} {payload : InventoryAdjustmentRequest} {r : String}
    {st' : Store} {mv : InventoryMovement}
    (h : adjust_inventory st payload r = .ok (st', mv)) :
    ∃ product, st.products.find? (fun p => p.id == payload.product_id) = some product ∧
      product.is_active = true ∧ ¬ product.stock_qty + payload.quantity_change < 0 ∧
      st' = adjustCommitted st product payload r ∧ mv = adjustMovement product payload := by
  rw [adjust_inventory] at h
  split at h
  · cases h
  next product hfind =>
    split at h
    · cases h
    next hact =>
      have hact' : product.is_active = true := by
        revert hact
        cases product.is_active <;> simp
      dsimp only at h
      split at h
      · cases h
      next hneg =>
        rw [Except.ok.injEq, Prod.mk.injEq] at h
        obtain ⟨h1, h2⟩ := h
        exact ⟨product, hfind, hact', hneg, h1.symm, h2.symm⟩

lemma adjust_error_of_insufficient {st : Store} {payload : InventoryAdjustmentRequest}
    {r : String} {product : Product}
    (hfind : st.products.find? (fun p => p.id == payload.product_id) = some product)
    (hact : product.is_active = true)
    (hneg : product.stock_qty + payload.quantity_change < 0) :
    adjust_inventory st payload r =
      .error (.insufficientStock product.name product.stock_qty
        |payload.quantity_change|) := by
  rw [adjust_inventory, hfind]
  dsimp only
  rw [if_neg (by rw [hact]; simp), if_pos hneg]

lemma checkoutCommitted_ledger (st : Store) (payload : CheckoutRequest) (n : String) :
    (checkoutCommitted st payload n).ledger =
      record_double_entry
        (record_double_entry st.ledger n (receiptAccount payload.payment_method)
          "Sales Revenue"
          (checkoutTotal payload (checkoutLines st.products (buildRequestedQty payload.items)))
          (checkoutNote n))
        n "COGS" "Inventory"
        (checkoutCogs (checkoutLines st.products (buildRequestedQty payload.items)))
        (checkoutNote n) := by
  rw [checkoutCommitted]
  dsimp only
  rw [applyLines_ledger]

lemma checkoutCommitted_products (st : Store) (payload : CheckoutRequest) (n : String) :
    (checkoutCommitted st payload n).products =
      (applyLines (st.orders.length + 1) n
        { st with orders := st.orders ++ [checkoutOrder st payload n] }
        (checkoutLines st.products (buildRequestedQty payload.items))).products := rfl

lemma checkoutCommitted_movements (st : Store) (payload : CheckoutRequest) (n : String) :
    (checkoutCommitted st payload n).movements =
      (applyLines (st.orders.length + 1) n
        { st with orders := st.orders ++ [checkoutOrder st payload n] }
        (checkoutLines st.products (buildRequestedQty payload.items))).movements := rfl

lemma checkoutCommitted_orders (st : Store) (payload : CheckoutRequest) (n : String) :
    (checkoutCommitted st payload n).orders =
      st.orders ++ [checkoutOrder st payload n] := by
  rw [checkoutCommitted]
  dsimp only
  rw [applyLines_orders]

lemma applyLines_movements_spec {st : Store} {ls : List CheckoutLine}
    (hnd : (ls.map (fun l => l.product.id)).Nodup)
    (hex : ∀ l ∈ ls, l.product.id ∈ st.products.map Product.id)
    (oid : ℕ) (n : String) :
    ∀ m ∈ (applyLines oid n st ls).movements.drop st.movements.length,
      m.after_qty = m.before_qty + m.quantity_change ∧
      m.movement_type = "sale" ∧
      (∃ l ∈ ls, m.product_id = l.product.id ∧ m.quantity_change = -l.qty) ∧
      stockOf (applyLines oid n st ls).products m.product_id = m.after_qty := by
  induction ls generalizing st with
  | nil =>
      intro m hm
      rw [applyLines, List.drop_length] at hm
      cases hm
  | cons l ls ih =>
      intro m hm
      rw [List.map_cons, List.nodup_cons] at hnd
      rw [applyLines] at hm ⊢
      set st' := applyLine oid n st l with hst'
      obtain ⟨ms, hms⟩ := applyLines_movements_extend oid n st' ls
      have hst'mov : st'.movements = st.movements ++
          [{ product_id := l.product.id, movement_type := "sale", quantity_change := -l.qty,
             before_qty := stockOf st.products l.product.id,
             after_qty := stockOf st.products l.product.id - l.qty,
             reason := some ("Checkout " ++ n), ref_type := some "order",
             ref_id := some oid }] := applyLine_movements oid n st l
      rw [hms, hst'mov, List.append_assoc, List.drop_left] at hm
      have hex' : ∀ l' ∈ ls, l'.product.id ∈ st'.products.map Product.id := by
        intro l' hl'
        rw [hst', applyLine_products, setStock_map_id]
        exact hex l' (List.mem_cons_of_mem _ hl')
      rcases List.mem_cons.mp hm with rfl | hm'
      · refine ⟨by dsimp only; ring, rfl, ⟨l, List.mem_cons_self _ _, rfl, rfl⟩, ?_⟩
        dsimp only
        rw [applyLines_stockOf_notMem hnd.1 oid n st', hst', applyLine_products,
          stockOf_setStock_self (hex l (List.mem_cons_self _ _))]
      · have hms' : m ∈ (applyLines oid n st' ls).movements.drop st'.movements.length := by
          rw [hms, List.drop_left]
          have : st'.movements.length = st.movements.length + 1 := by
            rw [hst'mov, List.length_append, List.length_cons, List.length_nil]
          exact hm'
        obtain ⟨h1, h2, ⟨l', hl', h3, h4⟩, h5⟩ := ih hnd.2 hex' m hms'
        exact ⟨h1, h2, ⟨l', List.mem_cons_of_mem _ hl', h3, h4⟩, h5⟩

lemma balanced_adjustLedger {ledger : List LedgerEntry} (hb : Balanced ledger)
    (product : Product) (payload : InventoryAdjustmentRequest) (tx_ref : String) :
    Balanced (adjustLedger ledger product payload tx_ref) := by
  rw [adjustLedger]
  split <;> exact balanced_record_double_entry hb _ _ _ _ _

lemma ledger_amounts_pos_rde {ledger : List LedgerEntry}
    (hl : ∀ e ∈ ledger, 0 < e.amount) (ref da ca : String) (x : ℚ) (note : Option String) :
    ∀ e ∈ record_double_entry ledger ref da ca (to_money x) note, 0 < e.amount := by
  intro e he
  rcases mem_record_double_entry he with h | ⟨hpos, hamt⟩
  · exact hl e h
  · rw [hamt, to_money_idem]
    exact hpos

lemma applyCheckout_of_ok {st st' : Store} {payload : CheckoutRequest} {n : String}
    {resp : CheckoutResponse} (h : checkout st payload n = .ok (st', resp)) :
    applyCheckout st payload n = st' := by
  rw [applyCheckout, h]

lemma applyCheckout_of_error {st : Store} {payload : CheckoutRequest} {n : String}
    {e : Err} (h : checkout st payload n = .error e) :
    applyCheckout st payload n = st := by
  rw [applyCheckout, h]

lemma applyAdjust_of_ok {st st' : Store} {payload : InventoryAdjustmentRequest} {r : String}
    {mv : InventoryMovement} (h : adjust_inventory st payload r = .ok (st', mv)) :
    applyAdjust st payload r = st' := by
  rw [applyAdjust, h]

lemma applyAdjust_of_error {st : Store} {payload : InventoryAdjustmentRequest} {r : String}
    {e : Err} (h : adjust_inventory st payload r = .error e) :
    applyAdjust st payload r = st := by
  rw [applyAdjust, h]

/-! Concrete sample data (the seeded Americano product of
`app/services/seeder.py`, price scenario of the spec) used to exercise the
endpoints at explicit inputs. -/

def sampleProduct : Product :=
  { id := 1, sku := "SKU-1", name := "Americano", sell_price := 25000,
    cost_price := 10000, stock_qty := 50, is_active := true }

def zeroCostProduct : Product :=
  { id := 2, sku := "SKU-2", name := "Widget", sell_price := 1000,
    cost_price := 0, stock_qty := 30, is_active := true }

def sampleStore : Store :=
  { products := [sampleProduct], orders := [], order_items := [],
    movements := [], ledger := [] }

def zeroCostStore : Store :=
  { products := [zeroCostProduct], orders := [], order_items := [],
    movements := [], ledger := [] }

def sampleReq : CheckoutRequest :=
  { items := [{ product_id := 1, quantity := 2 }], discount := 0, tax := 0,
    payment_method := "cash" }

def bigReq : CheckoutRequest :=
  { items := [{ product_id := 1, quantity := 999 }], discount := 0, tax := 0,
    payment_method := "cash" }

def sampleAdj : InventoryAdjustmentRequest :=
  { product_id := 1, quantity_change := 20, reason := none, counterparty_account := none }

def negAdj : InventoryAdjustmentRequest :=
  { product_id := 1, quantity_change := -999, reason := none, counterparty_account := none }

def zeroCostAdj : InventoryAdjustmentRequest :=
  { product_id := 2, quantity_change := -5, reason := none, counterparty_account := none }

def sampleCommitted : Store :=
  { products := [{ sampleProduct with stock_qty := 48 }],
    orders := [{ id := 1, order_number := "ORD-1", payment_method := "cash",
                 subtotal := 50000, discount := 0, tax := 0, total := 50000 }],
    order_items := [{ order_id := 1, product_id := 1, quantity := 2, unit_price := 25000,
                      cost_price := 10000, line_total := 50000, line_cost_total := 20000 }],
    movements := [{ product_id := 1, movement_type := "sale", quantity_change := -2,
                    before_qty := 50, after_qty := 48, reason := some "Checkout ORD-1",
                    ref_type := some "order", ref_id := some 1 }],
    ledger := [{ tx_ref := "ORD-1", account := "Cash", direction := "debit",
                 amount := 50000, note := some "Checkout order ORD-1" },
               { tx_ref := "ORD-1", account := "Sales Revenue", direction := "credit",
                 amount := 50000, note := some "Checkout order ORD-1" },
               { tx_ref := "ORD-1", account := "COGS", direction := "debit",
                 amount := 20000, note := some "Checkout order ORD-1" },
               { tx_ref := "ORD-1", account := "Inventory", direction := "credit",
                 amount := 20000, note := some "Checkout order ORD-1" }] }

def sampleResponse : CheckoutResponse :=
  { order_id := 1, order_number := "ORD-1", payment_method := "cash", subtotal := 50000,
    discount := 0, tax := 0, total := 50000, cogs := 20000, gross_profit := 30000,
    items := [{ product_id := 1, product_name := "Americano", quantity := 2,
                unit_price := 25000, line_total := 50000 }] }

def sampleAdjMovement : InventoryMovement :=
  { product_id := 1, movement_type := "restock", quantity_change := 20,
    before_qty := 50, after_qty := 70, reason := none, ref_type := some "manual",
    ref_id := none }

def sampleAdjCommitted : Store :=
  { products := [{ sampleProduct with stock_qty := 70 }],
    orders := [], order_items := [],
    movements := [sampleAdjMovement],
    ledger := [{ tx_ref := "INV-1", account := "Inventory", direction := "debit",
                 amount := 200000, note := some "Manual stock adjustment SKU-1" },
               { tx_ref := "INV-1", account := "Cash", direction := "credit",
                 amount := 200000, note := some "Manual stock adjustment SKU-1" }] }

def zeroCostMovement : InventoryMovement :=
  { product_id := 2, movement_type := "adjustment", quantity_change := -5,
    before_qty := 30, after_qty := 25, reason := none, ref_type := some "manual",
    ref_id := none }

def zeroCostCommitted : Store :=
  { products := [{ zeroCostProduct with stock_qty := 25 }],
    orders := [], order_items := [],
    movements := [zeroCostMovement], ledger := [] }

set_option maxHeartbeats 1000000 in
lemma eval_checkout_ok :
    checkout sampleStore sampleReq "ORD-1" = .ok (sampleCommitted, sampleResponse) := by
  norm_num [checkout, buildRequestedQty, bumpQty, findActiveProduct, firstInsufficient,
    checkoutLines, priceLine, checkoutSubtotal, checkoutCogs, receiptAccount, checkoutNote,
    missingIds, to_money, roundHalfUp, applyLines, applyLine, record_double_entry,
    add_ledger_entry, setStock, stockOf, sampleStore, sampleCommitted, sampleProduct,
    sampleReq, sampleResponse, List.find?, List.filterMap_cons]
  decide

lemma eval_checkout_err :
    checkout sampleStore bigReq "ORD-2" =
      .error (.insufficientStock "Americano" 50 999) := by
  have hfi : firstInsufficient sampleStore.products (buildRequestedQty bigReq.items) =
      some (sampleProduct, 999) := by decide
  have hmiss : missingIds sampleStore (buildRequestedQty bigReq.items) = [] := by decide
  exact checkout_error_of_insufficient hmiss hfi

set_option maxHeartbeats 1000000 in
lemma eval_adjust_ok :
    adjust_inventory sampleStore sampleAdj "INV-1" =
      .ok (sampleAdjCommitted, sampleAdjMovement) := by
  norm_num [adjust_inventory, adjustCommitted, adjustLedger, adjustValue,
    adjustCounterparty, adjustNote, adjustMovement, record_double_entry, add_ledger_entry,
    to_money, roundHalfUp, setStock, stockOf, sampleStore, sampleProduct, sampleAdj,
    sampleAdjCommitted, sampleAdjMovement, List.find?]
  decide

lemma eval_adjust_err :
    adjust_inventory sampleStore negAdj "INV-2" =
      .error (.insufficientStock "Americano" 50 999) := by
  have hfind : sampleStore.products.find? (fun p => p.id == negAdj.product_id) =
      some sampleProduct := by decide
  have := adjust_error_of_insufficient (r := "INV-2") hfind (by decide) (by decide)
  simpa using this

lemma to_money_50000 : to_money 50000 = 50000 := by
  rw [to_money, roundHalfUp]
  norm_num

set_option maxHeartbeats 1000000 in
lemma eval_zeroCost_ok :
    adjust_inventory zeroCostStore zeroCostAdj "INV-3" =
      .ok (zeroCostCommitted, zeroCostMovement) := by
  norm_num [adjust_inventory, adjustCommitted, adjustLedger, adjustValue,
    adjustCounterparty, adjustNote, adjustMovement, record_double_entry, add_ledger_entry,
    to_money, roundHalfUp, setStock, stockOf, zeroCostStore, zeroCostProduct, zeroCostAdj,
    zeroCostCommitted, zeroCostMovement, List.find?]

/-! The specification claims. -/

/-- C1: every rejected checkout request (unknown or inactive product id,
insufficient stock, or negative computed total) leaves the store unchanged —
no `Product.stock_qty` is mutated, no `Order`, `OrderItem`,
`InventoryMovement` or `LedgerEntry` row is written — and every rejected
inventory adjustment likewise leaves the store unchanged: the request
transaction rolls back to exactly the pre-request store. -/
theorem claim_C1 (st : Store) (payload : CheckoutRequest) (n : String)
    (adj : InventoryAdjustmentRequest) (r : String) :
    (∀ e, checkout st payload n = .error e → applyCheckout st payload n = st) ∧
    (∀ e, adjust_inventory st adj r = .error e → applyAdjust st adj r = st) :=
  ⟨fun _ h => applyCheckout_of_error h, fun _ h => applyAdjust_of_error h⟩

/-- C1 at concrete inputs: an insufficient-stock checkout (999 of 50 in
stock) and an insufficient-stock adjustment (-999 on 50) both leave the
sample store exactly unchanged. -/
theorem claim_C1_witness :
    applyCheckout sampleStore bigReq "ORD-2" = sampleStore ∧
    applyAdjust sampleStore negAdj "INV-2" = sampleStore :=
  ⟨(claim_C1 sampleStore bigReq "ORD-2" negAdj "INV-2").1 _ eval_checkout_err,
   (claim_C1 sampleStore bigReq "ORD-2" negAdj "INV-2").2 _ eval_adjust_err⟩

/-- C2: the double-entry posting primitive writes either nothing (amount ≤ 0)
or exactly one debit row and one credit row of the same normalized amount;
consequently the balance invariant — for every tx_ref, the sum of debit
amounts equals the sum of credit amounts — is preserved by every checkout
and every inventory adjustment. -/
theorem claim_C2 (st : Store) (payload : CheckoutRequest) (n : String)
    (adj : InventoryAdjustmentRequest) (r : String) (ledger : List LedgerEntry)
    (tx_ref da ca : String) (amount : ℚ) (note : Option String) :
    (amount ≤ 0 → record_double_entry ledger tx_ref da ca amount note = ledger) ∧
    (0 < amount → record_double_entry ledger tx_ref da ca amount note =
      ledger ++ [{ tx_ref := tx_ref, account := da, direction := "debit",
                   amount := to_money amount, note := note },
                 { tx_ref := tx_ref, account := ca, direction := "credit",
                   amount := to_money amount, note := note }]) ∧
    (Balanced st.ledger → Balanced (applyCheckout st payload n).ledger) ∧
    (Balanced st.ledger → Balanced (applyAdjust st adj r).ledger) := by
  refine ⟨fun h => record_double_entry_nonpos h _ _ _ _ _,
          fun h => record_double_entry_pos h _ _ _ _ _, ?_, ?_⟩
  · intro hb
    cases hres : checkout st payload n with
    | error e => rw [applyCheckout_of_error hres]; exact hb
    | ok pr =>
        obtain ⟨st', resp⟩ := pr
        obtain ⟨-, -, -, hst, -⟩ := checkout_ok_inv hres
        rw [applyCheckout_of_ok hres, hst, checkoutCommitted_ledger]
        exact balanced_record_double_entry
          (balanced_record_double_entry hb _ _ _ _ _) _ _ _ _ _
  · intro hb
    cases hres : adjust_inventory st adj r with
    | error e => rw [applyAdjust_of_error hres]; exact hb
    | ok pr =>
        obtain ⟨st', mv⟩ := pr
        obtain ⟨product, hfind, hact, hneg, hst, -⟩ := adjust_ok_inv hres
        rw [applyAdjust_of_ok hres, hst]
        exact balanced_adjustLedger hb _ _ _

/-- C2 at concrete inputs: a positive posting writes exactly the two equal
rows, and the ledger committed by the sample checkout is balanced. -/
theorem claim_C2_witness :
    record_double_entry [] "T" "Cash" "Sales Revenue" 50000 none =
      [{ tx_ref := "T", account := "Cash", direction := "debit", amount := 50000,
         note := none },
       { tx_ref := "T", account := "Sales Revenue", direction := "credit",
         amount := 50000, note := none }] ∧
    Balanced (applyCheckout sampleStore sampleReq "ORD-1").ledger := by
  constructor
  · have h := (claim_C2 sampleStore sampleReq "ORD-1" sampleAdj "INV-1" [] "T" "Cash"
      "Sales Revenue" 50000 none).2.1 (by norm_num)
    rw [h, to_money_50000]
    rfl
  · exact (claim_C2 sampleStore sampleReq "ORD-1" sampleAdj "INV-1" [] "T" "Cash"
      "Sales Revenue" 50000 none).2.2.1 (fun ref => rfl)

/-- C3: from a store where every product stock is non-negative (and product
ids are unique, the primary-key invariant), every committed checkout and
every committed adjustment preserves non-negativity of every stock; a
checkout whose coalesced quantity for some line exceeds that product's
stock fails with `InsufficientStock` (given all ids resolve), and an
adjustment with `before_qty + quantity_change < 0` fails with
`InsufficientStock`. -/
theorem claim_C3 (st : Store) (payload : CheckoutRequest) (n : String)
    (adj : InventoryAdjustmentRequest) (r : String)
    (hnd : (st.products.map Product.id).Nodup)
    (hn : ∀ q ∈ st.products, 0 ≤ q.stock_qty) :
    (∀ q ∈ (applyCheckout st payload n).products, 0 ≤ q.stock_qty) ∧
    (∀ q ∈ (applyAdjust st adj r).products, 0 ≤ q.stock_qty) ∧
    (∀ pid qty p, (pid, qty) ∈ buildRequestedQty payload.items →
      findActiveProduct st.products pid = some p → p.stock_qty < qty →
      missingIds st (buildRequestedQty payload.items) = [] →
      ∃ nm av rq, checkout st payload n = .error (.insufficientStock nm av rq)) ∧
    (∀ p, st.products.find? (fun q => q.id == adj.product_id) = some p →
      p.is_active = true → p.stock_qty + adj.quantity_change < 0 →
      adjust_inventory st adj r =
        .error (.insufficientStock p.name p.stock_qty |adj.quantity_change|)) := by
  refine ⟨?_, ?_, ?_, fun p hf ha hb => adjust_error_of_insufficient hf ha hb⟩
  · cases hres : checkout st payload n with
    | error e => rw [applyCheckout_of_error hres]; exact hn
    | ok pr =>
        obtain ⟨st', resp⟩ := pr
        obtain ⟨hmiss, hfi, -, hst, -⟩ := checkout_ok_inv hres
        rw [applyCheckout_of_ok hres, hst, checkoutCommitted_products]
        apply applyLines_stock_nonneg
        · exact hn
        · intro l hl
          obtain ⟨pq, hpq, hfd, hpl⟩ := mem_checkoutLines hl
          have hqty : l.qty = pq.2 := by rw [hpl]; rfl
          have hnlt := firstInsufficient_eq_none.mp hfi pq hpq l.product hfd
          have hid : l.product.id = pq.1 := (findActiveProduct_spec hfd).1
          rw [hqty, hid]
          show pq.2 ≤ stockOf st.products pq.1
          rw [stockOf_eq_of_findActive hnd hfd]
          exact not_lt.mp hnlt
        · rw [checkoutLines_map_id (missingIds_eq_nil.mp hmiss)]
          exact nodup_keys_buildRequestedQty _
  · cases hres : adjust_inventory st adj r with
    | error e => rw [applyAdjust_of_error hres]; exact hn
    | ok pr =>
        obtain ⟨st', mv⟩ := pr
        obtain ⟨product, hfind, hact, hneg, hst, -⟩ := adjust_ok_inv hres
        rw [applyAdjust_of_ok hres, hst]
        intro q hq
        rw [show (adjustCommitted st product adj r).products =
          setStock st.products product.id
            (product.stock_qty + adj.quantity_change) from rfl] at hq
        rcases mem_setStock hq with ⟨p, hp, rfl⟩
        by_cases hid : p.id = product.id
        · rw [if_pos hid]
          exact not_lt.mp hneg
        · rw [if_neg hid]
          exact hn p hp
  · intro pid qty p hmem hfd hlt hmiss
    cases hfi : firstInsufficient st.products (buildRequestedQty payload.items) with
    | none => exact absurd hlt (firstInsufficient_eq_none.mp hfi (pid, qty) hmem p hfd)
    | some pr =>
        obtain ⟨pp, qq⟩ := pr
        exact ⟨pp.name, pp.stock_qty, qq, checkout_error_of_insufficient hmiss hfi⟩

/-- C3 at concrete inputs: the sample checkout and the sample adjustment
both preserve non-negative stock. -/
theorem claim_C3_witness :
    (∀ q ∈ (applyCheckout sampleStore sampleReq "ORD-1").products, 0 ≤ q.stock_qty) ∧
    (∀ q ∈ (applyAdjust sampleStore sampleAdj "INV-1").products, 0 ≤ q.stock_qty) := by
  obtain ⟨h1, h2, -, -⟩ :=
    claim_C3 sampleStore sampleReq "ORD-1" sampleAdj "INV-1" (by decide) (by decide)
  exact ⟨h1, h2⟩

/-- C4: for every accepted checkout the persisted order and the response
satisfy `total = normalize(subtotal - discount + tax)` with `total ≥ 0`,
where `subtotal` (resp. `cogs`) is the accumulated sum of per-line
`normalize(unit_price × qty)` (resp. `normalize(unit_cost × qty)`) and
`discount`/`tax` are the normalized request inputs; the returned
`gross_profit` equals `normalize(total - cogs)`; and a checkout whose
computed total is negative is rejected with `InvalidTransaction`. -/
theorem claim_C4 (st : Store) (payload : CheckoutRequest) (n : String) :
    (∀ st' resp, checkout st payload n = .ok (st', resp) →
      resp.total = to_money (resp.subtotal - resp.discount + resp.tax) ∧
      0 ≤ resp.total ∧
      resp.subtotal = to_money (((checkoutLines st.products
        (buildRequestedQty payload.items)).map CheckoutLine.line_total).sum) ∧
      resp.discount = to_money payload.discount ∧
      resp.tax = to_money payload.tax ∧
      resp.cogs = to_money (((checkoutLines st.products
        (buildRequestedQty payload.items)).map CheckoutLine.line_cost).sum) ∧
      resp.gross_profit = to_money (resp.total - resp.cogs) ∧
      (∀ l ∈ checkoutLines st.products (buildRequestedQty payload.items),
        l.line_total = to_money (l.unit_price * l.qty) ∧
        l.line_cost = to_money (l.unit_cost * l.qty) ∧
        l.unit_price = to_money l.product.sell_price ∧
        l.unit_cost = to_money l.product.cost_price) ∧
      (∃ o, st'.orders = st.orders ++ [o] ∧ o.subtotal = resp.subtotal ∧
        o.discount = resp.discount ∧ o.tax = resp.tax ∧ o.total = resp.total)) ∧
    (missingIds st (buildRequestedQty payload.items) = [] →
     firstInsufficient st.products (buildRequestedQty payload.items) = none →
     checkoutTotal payload (checkoutLines st.products (buildRequestedQty payload.items)) < 0 →
     checkout st payload n = .error .invalidTransaction) := by
  constructor
  · intro st' resp h
    obtain ⟨hmiss, hfi, htot, hst, hresp⟩ := checkout_ok_inv h
    subst hst hresp
    refine ⟨rfl, not_lt.mp htot, rfl, rfl, rfl, rfl, rfl, ?_, ?_⟩
    · intro l hl
      obtain ⟨pq, hpq, hfd, hpl⟩ := mem_checkoutLines hl
      rw [hpl]
      exact ⟨rfl, rfl, rfl, rfl⟩
    · exact ⟨checkoutOrder st payload n, checkoutCommitted_orders st payload n,
        rfl, rfl, rfl, rfl⟩
  · exact fun hmiss hfi htot => checkout_error_of_neg_total hmiss hfi htot

/-- C4 at the concrete sample checkout: total = normalize(subtotal -
discount + tax) ≥ 0 and gross_profit = normalize(total - cogs). -/
theorem claim_C4_witness :
    sampleResponse.total =
      to_money (sampleResponse.subtotal - sampleResponse.discount + sampleResponse.tax) ∧
    0 ≤ sampleResponse.total ∧
    sampleResponse.gross_profit =
      to_money (sampleResponse.total - sampleResponse.cogs) := by
  obtain ⟨h1, h2, -, -, -, -, h7, -, -⟩ :=
    (claim_C4 sampleStore sampleReq "ORD-1").1 sampleCommitted sampleResponse
      eval_checkout_ok
  exact ⟨h1, h2, h7⟩

/-- C5 as stated is false: the primitive's guard tests the raw amount, but
the stored amount is normalized afterwards, so a strictly positive amount
below half a cent (here 1/250 = 0.004) passes the guard and is stored as
the normalized amount 0.00 — a written LedgerEntry row with amount ≤ 0. -/
theorem claim_C5_counterexample :
    (0 : ℚ) < 1 / 250 ∧
    add_ledger_entry [] "TX" "Cash" "debit" (1 / 250) none =
      [{ tx_ref := "TX", account := "Cash", direction := "debit", amount := 0,
         note := none }] ∧
    ¬ (0 : ℚ) < 0 := by
  refine ⟨by norm_num, ?_, by norm_num⟩
  rw [add_ledger_entry_pos (by norm_num)]
  have hm : to_money (1 / 250 : ℚ) = 0 := by
    rw [to_money, roundHalfUp]
    norm_num
  rw [hm]
  rfl

/-- C5 amended: for every call whose amount input is already normalized
(`to_money amount = amount`, which holds at every in-repo call site), either
no row is written (amount ≤ 0) or every row written has stored amount > 0;
consequently, from any store whose ledger amounts are all positive, every
checkout and every adjustment preserves positivity of all ledger amounts. -/
theorem claim_C5_amended (st : Store) (payload : CheckoutRequest) (n : String)
    (adj : InventoryAdjustmentRequest) (r : String) (ledger : List LedgerEntry)
    (tx_ref acc dir : String) (amount : ℚ) (note : Option String) :
    (amount ≤ 0 → add_ledger_entry ledger tx_ref acc dir amount note = ledger) ∧
    (to_money amount = amount → 0 < amount →
      ∀ e ∈ add_ledger_entry ledger tx_ref acc dir amount note,
        e ∈ ledger ∨ 0 < e.amount) ∧
    ((∀ e ∈ st.ledger, 0 < e.amount) →
      ∀ e ∈ (applyCheckout st payload n).ledger, 0 < e.amount) ∧
    ((∀ e ∈ st.ledger, 0 < e.amount) →
      ∀ e ∈ (applyAdjust st adj r).ledger, 0 < e.amount) := by
  refine ⟨fun h => add_ledger_entry_nonpos h _ _ _ _ _, ?_, ?_, ?_⟩
  · intro hnorm hpos e he
    rw [add_ledger_entry_pos hpos] at he
    rcases List.mem_append.mp he with h | h
    · exact Or.inl h
    · right
      simp only [List.mem_singleton] at h
      rw [h]
      show 0 < to_money amount
      rw [hnorm]
      exact hpos
  · intro hl
    cases hres : checkout st payload n with
    | error e => rw [applyCheckout_of_error hres]; exact hl
    | ok pr =>
        obtain ⟨st', resp⟩ := pr
        obtain ⟨-, -, -, hst, -⟩ := checkout_ok_inv hres
        rw [applyCheckout_of_ok hres, hst, checkoutCommitted_ledger]
        simp only [checkoutTotal, checkoutCogs]
        exact ledger_amounts_pos_rde (ledger_amounts_pos_rde hl _ _ _ _ _) _ _ _ _ _
  · intro hl
    cases hres : adjust_inventory st adj r with
    | error e => rw [applyAdjust_of_error hres]; exact hl
    | ok pr =>
        obtain ⟨st', mv⟩ := pr
        obtain ⟨product, hfind, hact, hneg, hst, -⟩ := adjust_ok_inv hres
        rw [applyAdjust_of_ok hres, hst]
        show ∀ e ∈ adjustLedger st.ledger product adj r, 0 < e.amount
        rw [adjustLedger]
        simp only [adjustValue]
        split
        · exact ledger_amounts_pos_rde hl _ _ _ _ _
        · exact ledger_amounts_pos_rde hl _ _ _ _ _

/-- C5 amended at concrete inputs: a normalized positive posting writes only
positive rows, and the sample checkout leaves only positive ledger
amounts. -/
theorem claim_C5_amended_witness :
    (∀ e ∈ add_ledger_entry [] "T" "Cash" "debit" 50000 none,
      e ∈ ([] : List LedgerEntry) ∨ 0 < e.amount) ∧
    (∀ e ∈ (applyCheckout sampleStore sampleReq "ORD-1").ledger, 0 < e.amount) := by
  constructor
  · exact (claim_C5_amended sampleStore sampleReq "ORD-1" sampleAdj "INV-1" [] "T"
      "Cash" "debit" 50000 none).2.1 to_money_50000 (by norm_num)
  · refine (claim_C5_amended sampleStore sampleReq "ORD-1" sampleAdj "INV-1" [] "T"
      "Cash" "debit" 50000 none).2.2.1 ?_
    intro e he
    simp [sampleStore] at he

/-- C6: a checkout request with repeated product lines behaves identically
to the request in which the repeats are replaced by a single line with the
summed quantity: the two requests produce the same result (same error, or
same committed store — stock checks, pricing, OrderItems, movements,
ledger — and same response). -/
theorem claim_C6 (st : Store) (payload : CheckoutRequest) (n : String) :
    checkout st (coalesceRequest payload) n = checkout st payload n := by
  simp only [checkout, coalesceRequest]
  rw [buildRequestedQty_coalesce]

/-- C7: every `InventoryMovement` written by a committed checkout satisfies
`after_qty = before_qty + quantity_change`, has kind `sale` with
`quantity_change = -qty` for its coalesced line, and its `after_qty` equals
the owning product's stock as mutated in the same transaction; an
adjustment's movement satisfies the same arithmetic, has kind `restock`
for a positive delta and `adjustment` for a negative one, and its
`after_qty` equals the product's committed stock. -/
theorem claim_C7 (st : Store) (payload : CheckoutRequest) (n : String)
    (adj : InventoryAdjustmentRequest) (r : String) :
    (∀ st' resp, checkout st payload n = .ok (st', resp) →
      ∀ m ∈ st'.movements.drop st.movements.length,
        m.after_qty = m.before_qty + m.quantity_change ∧
        m.movement_type = "sale" ∧
        (∃ qty, (m.product_id, qty) ∈ buildRequestedQty payload.items ∧
          m.quantity_change = -qty) ∧
        stockOf st'.products m.product_id = m.after_qty) ∧
    (∀ st' mv, adjust_inventory st adj r = .ok (st', mv) →
      st'.movements = st.movements ++ [mv] ∧
      mv.after_qty = mv.before_qty + mv.quantity_change ∧
      (0 < adj.quantity_change → mv.movement_type = "restock") ∧
      (adj.quantity_change < 0 → mv.movement_type = "adjustment") ∧
      stockOf st'.products mv.product_id = mv.after_qty) := by
  constructor
  · intro st' resp h m hm
    obtain ⟨hmiss, hfi, -, hst, -⟩ := checkout_ok_inv h
    subst hst
    have hsome := missingIds_eq_nil.mp hmiss
    have hndl : ((checkoutLines st.products (buildRequestedQty payload.items)).map
        (fun l => l.product.id)).Nodup := by
      rw [checkoutLines_map_id hsome]
      exact nodup_keys_buildRequestedQty _
    have hex : ∀ l ∈ checkoutLines st.products (buildRequestedQty payload.items),
        l.product.id ∈ ({ st with orders :=
          st.orders ++ [checkoutOrder st payload n] } : Store).products.map Product.id := by
      intro l hl
      obtain ⟨pq, hpq, hfd, hpl⟩ := mem_checkoutLines hl
      exact List.mem_map_of_mem Product.id (findActiveProduct_mem hfd)
    rw [checkoutCommitted_movements] at hm
    obtain ⟨h1, h2, ⟨l, hl, h3, h4⟩, h5⟩ :=
      applyLines_movements_spec hndl hex (st.orders.length + 1) n m hm
    refine ⟨h1, h2, ?_, h5⟩
    obtain ⟨pq, hpq, hfd, hpl⟩ := mem_checkoutLines hl
    refine ⟨pq.2, ?_, ?_⟩
    · have hid : m.product_id = pq.1 := by
        rw [h3, (findActiveProduct_spec hfd).1]
      rw [hid]
      simpa using hpq
    · rw [h4, hpl]
      rfl
  · intro st' mv h
    obtain ⟨product, hfind, hact, hneg, hst, hmv⟩ := adjust_ok_inv h
    subst hst hmv
    refine ⟨rfl, rfl, ?_, ?_, ?_⟩
    · intro hpos
      show (if adj.quantity_change > 0 then "restock" else "adjustment") = "restock"
      rw [if_pos hpos]
    · intro hneg'
      show (if adj.quantity_change > 0 then "restock" else "adjustment") = "adjustment"
      rw [if_neg (not_lt.mpr (le_of_lt hneg'))]
    · show stockOf (setStock st.products product.id
        (product.stock_qty + adj.quantity_change)) product.id =
          product.stock_qty + adj.quantity_change
      exact stockOf_setStock_self
        (List.mem_map_of_mem Product.id (List.mem_of_find?_eq_some hfind)) _

/-- C7 at concrete inputs: each movement written by the sample checkout and
the sample adjustment satisfies the before/after arithmetic and kind. -/
theorem claim_C7_witness :
    sampleAdjCommitted.movements = sampleStore.movements ++ [sampleAdjMovement] ∧
    sampleAdjMovement.after_qty =
      sampleAdjMovement.before_qty + sampleAdjMovement.quantity_change ∧
    (∀ m ∈ sampleCommitted.movements.drop sampleStore.movements.length,
      m.movement_type = "sale") := by
  obtain ⟨hc, ha⟩ := claim_C7 sampleStore sampleReq "ORD-1" sampleAdj "INV-1"
  obtain ⟨hm1, hm2, -, -, -⟩ := ha sampleAdjCommitted sampleAdjMovement eval_adjust_ok
  exact ⟨hm1, hm2,
    fun m hm => (hc sampleCommitted sampleResponse eval_checkout_ok m hm).2.1⟩

/-- C8: an accepted checkout posts exactly two double entries with the order
number as shared tx_ref: the first debits Accounts Receivable when the
normalized payment_method is "credit" and Cash otherwise, crediting Sales
Revenue with amount = total; the second debits COGS and credits Inventory
with amount = cogs (and the schema validator normalizes payment_method to
the trimmed lowercase form). -/
theorem claim_C8 {st : Store} {payload : CheckoutRequest} {n : String}
    {st' : Store} {resp : CheckoutResponse}
    (h : checkout st payload n = .ok (st', resp)) :
    st'.ledger =
      record_double_entry
        (record_double_entry st.ledger n
          (if payload.payment_method = "credit" then "Accounts Receivable" else "Cash")
          "Sales Revenue" resp.total (checkoutNote n))
        n "COGS" "Inventory" resp.cogs (checkoutNote n) ∧
    (∀ s m, validate_payment_method s = some m → m = s.trim.toLower) := by
  obtain ⟨-, -, -, hst, hresp⟩ := checkout_ok_inv h
  subst hst hresp
  constructor
  · rw [checkoutCommitted_ledger]
    rfl
  · intro s m hv
    rw [validate_payment_method] at hv
    by_cases hc : s.trim.toLower = ""
    · rw [if_pos hc] at hv
      cases hv
    · rw [if_neg hc] at hv
      exact (Option.some.inj hv).symm

/-- C8 at the concrete sample checkout: the committed ledger equals the two
postings keyed by the order number, receipt account Cash (payment method
"cash"). -/
theorem claim_C8_witness :
    sampleCommitted.ledger =
      record_double_entry
        (record_double_entry sampleStore.ledger "ORD-1"
          (if sampleReq.payment_method = "credit" then "Accounts Receivable" else "Cash")
          "Sales Revenue" sampleResponse.total (checkoutNote "ORD-1"))
        "ORD-1" "COGS" "Inventory" sampleResponse.cogs (checkoutNote "ORD-1") :=
  (claim_C8 eval_checkout_ok).1

/-- C9: an accepted adjustment posts a double entry valued at
`normalize(unit_cost × |quantity_change|)` against the counterparty account:
the caller-supplied name trimmed when non-empty after trimming, otherwise
Cash for increases and Inventory Shrinkage Expense for decreases; increases
debit Inventory and credit the counterparty, decreases debit the
counterparty and credit Inventory. -/
theorem claim_C9 {st : Store} {adj : InventoryAdjustmentRequest} {r : String}
    {st' : Store} {mv : InventoryMovement}
    (h : adjust_inventory st adj r = .ok (st', mv)) :
    ∃ product, st.products.find? (fun p => p.id == adj.product_id) = some product ∧
      (∀ s, adj.counterparty_account = some s → s.trim ≠ "" →
        adjustCounterparty adj = s.trim) ∧
      ((adj.counterparty_account = none ∨
          ∃ s, adj.counterparty_account = some s ∧ s.trim = "") →
        adjustCounterparty adj =
          if 0 < adj.quantity_change then "Cash" else "Inventory Shrinkage Expense") ∧
      adjustValue product adj =
        to_money (to_money product.cost_price * |adj.quantity_change|) ∧
      st'.ledger =
        (if 0 < adj.quantity_change then
          record_double_entry st.ledger r "Inventory" (adjustCounterparty adj)
            (adjustValue product adj) (adjustNote product adj)
        else
          record_double_entry st.ledger r (adjustCounterparty adj) "Inventory"
            (adjustValue product adj) (adjustNote product adj)) := by
  obtain ⟨product, hfind, hact, hneg, hst, hmv⟩ := adjust_ok_inv h
  subst hst
  refine ⟨product, hfind, ?_, ?_, rfl, ?_⟩
  · intro s hs hne
    rw [adjustCounterparty, hs]
    dsimp only
    rw [if_pos hne]
  · intro hcase
    rcases hcase with hnone | ⟨s, hs, hemp⟩
    · rw [adjustCounterparty, hnone]
    · rw [adjustCounterparty, hs]
      dsimp only
      rw [if_neg (by simp [hemp])]
  · show adjustLedger st.ledger product adj r = _
    rw [adjustLedger]

/-- C9 at the concrete sample adjustment (+20 with no counterparty given):
the default counterparty Cash is used and the ledger receives the
debit-Inventory / credit-Cash posting. -/
theorem claim_C9_witness :
    sampleAdjCommitted.ledger =
      record_double_entry sampleStore.ledger "INV-1" "Inventory"
        (adjustCounterparty sampleAdj) (adjustValue sampleProduct sampleAdj)
        (adjustNote sampleProduct sampleAdj) := by
  obtain ⟨product, hfind, -, -, -, hled⟩ := claim_C9 eval_adjust_ok
  have hp : product = sampleProduct := by
    have h2 : sampleStore.products.find? (fun p => p.id == sampleAdj.product_id) =
        some sampleProduct := by decide
    rw [h2] at hfind
    exact (Option.some.inj hfind).symm
  rw [hp] at hled
  rw [hled, if_pos (by decide : (0 : ℤ) < sampleAdj.quantity_change)]

/-- C10: an accepted adjustment on a product whose cost_price is zero
commits the stock mutation and the InventoryMovement but writes no
LedgerEntry at all — the posting value normalizes to zero, so the
double-entry primitive is a no-op and the ledger is exactly unchanged. -/
theorem claim_C10 {st : Store} {adj : InventoryAdjustmentRequest} {r : String}
    {st' : Store} {mv : InventoryMovement}
    (h : adjust_inventory st adj r = .ok (st', mv))
    (hzero : ∀ p, st.products.find? (fun q => q.id == adj.product_id) = some p →
      p.cost_price = 0) :
    st'.ledger = st.ledger ∧
    st'.movements = st.movements ++ [mv] ∧
    st'.orders = st.orders ∧ st'.order_items = st.order_items ∧
    ∃ product, st.products.find? (fun q => q.id == adj.product_id) = some product ∧
      st'.products = setStock st.products product.id
        (product.stock_qty + adj.quantity_change) := by
  obtain ⟨product, hfind, hact, hneg, hst, hmv⟩ := adjust_ok_inv h
  subst hst hmv
  have hval : adjustValue product adj = 0 := by
    rw [adjustValue, hzero product hfind, to_money_zero, zero_mul, to_money_zero]
  refine ⟨?_, rfl, rfl, rfl, product, hfind, rfl⟩
  show adjustLedger st.ledger product adj r = st.ledger
  rw [adjustLedger]
  split <;> { rw [hval]; exact record_double_entry_nonpos le_rfl _ _ _ _ _ }

/-- C10 at the concrete zero-cost adjustment (-5 on a cost-0 product): the
movement and stock mutation commit while the ledger stays empty. -/
theorem claim_C10_witness :
    zeroCostCommitted.ledger = zeroCostStore.ledger ∧
    zeroCostCommitted.movements = zeroCostStore.movements ++ [zeroCostMovement] := by
  have hz : ∀ p, zeroCostStore.products.find?
      (fun q => q.id == zeroCostAdj.product_id) = some p → p.cost_price = 0 := by
    intro p hp
    have h2 : zeroCostStore.products.find? (fun q => q.id == zeroCostAdj.product_id) =
        some zeroCostProduct := by decide
    rw [h2] at hp
    rw [← Option.some.inj hp]
    rfl
  obtain ⟨h1, h2, -, -, -⟩ := claim_C10 eval_zeroCost_ok hz
  exact ⟨h1, h2⟩

end MoonPOS
